import Mathlib

/-!
Verification of the Trip Planner core algorithms (`trip_planner_mail.py`).

The Python source is shallowly embedded: pure numeric code becomes functions
over `Nat`/`Int`/`Rat` — CPython float true division of integers is modelled
as the correctly rounded binary64 quotient (an exact rational), and `int()`
as truncation toward zero — text processing becomes functions over
`List Char`/`String`, fallible code returns `Except`, and the Streamlit `run`
driver becomes a function from the collected form data (plus the outcomes of
the external AI call) to an explicit result datatype.
-/

namespace TripPlanner

/-! ## Budget allocation (`add_enhanced_budget_breakdown`, lines 479-548)

The Python code computes, for each of the four named categories,
`int(total_budget * pct / 100)` and then
`miscellaneous = total_budget - (accommodation + transport + food + activities)`.
-/

/-- Python `int()` applied to a rational value: truncation toward zero. -/
def pyInt (q : ℚ) : ℤ :=
  if 0 ≤ q then ⌊q⌋ else ⌈q⌉

/-- Round the nonnegative rational `num / den` to the nearest integer, ties
to even: the IEEE-754 default rounding used by CPython everywhere below. -/
def roundNearestEven (num den : ℕ) : ℕ :=
  if 2 * (num % den) < den then num / den
  else if den < 2 * (num % den) then num / den + 1
  else if (num / den) % 2 = 0 then num / den else num / den + 1

/-- Fuel-driven base-two logarithm (`Nat.log2` is defined by well-founded
recursion, which the kernel cannot evaluate; this structural version reduces
by computation and is proved equal to it). -/
def log2Fuel : ℕ → ℕ → ℕ
  | 0, _ => 0
  | fuel + 1, n => if n < 2 then 0 else log2Fuel fuel (n / 2) + 1

def natLog2 (n : ℕ) : ℕ := log2Fuel n n

/-- The binade exponent `⌊log2 (a / b)⌋` of a positive rational, computed by
scaling: `a * 2^300 / b` has its most significant bit at position
`⌊log2 (a/b)⌋ + 300` for every quotient down to `2^-300`. -/
def flExp (a b : ℕ) : ℤ :=
  (natLog2 (a * 2 ^ 300 / b) : ℤ) - 300

/-- The quotient `a / b` rounded to 53 significant bits at binade `e`: the
representable values are the multiples of `2^(e-52)`, and the scaled quotient
is rounded to the nearest such multiple, ties to even. -/
def flScaled (a b : ℕ) (e : ℤ) : ℚ :=
  if 52 ≤ e then
    (roundNearestEven a (b * 2 ^ (e - 52).toNat) : ℚ) * (2 : ℚ) ^ (e - 52)
  else
    (roundNearestEven (a * 2 ^ (52 - e).toNat) b : ℚ) * (2 : ℚ) ^ (e - 52)

/-- The IEEE-754 binary64 value of `a / b` (correctly rounded, ties to even),
as an exact rational: CPython `int.__truediv__` produces exactly this double.
Valid over the normal range; exponent overflow (quotients at or beyond
`2^1024 - 2^970`, i.e. budgets around `10^308`, where CPython raises
OverflowError) and subnormals are outside the modelled range. -/
def flDiv (a b : ℕ) : ℚ :=
  if a = 0 ∨ b = 0 then 0 else flScaled a b (flExp a b)

/-- One named category amount: Python `int(total_budget * pct / 100)` —
float true division of the exact integer product by 100, truncated by
`int()`. -/
def pctAmount (total pct : ℕ) : ℤ :=
  pyInt (flDiv (total * pct) 100)

/-- The budget table rows produced by `add_enhanced_budget_breakdown`. -/
structure BudgetBreakdown where
  accommodation : ℤ
  transport : ℤ
  food : ℤ
  activities : ℤ
  miscellaneous : ℤ
deriving DecidableEq, Repr

/-- Embedding of the allocation arithmetic of `add_enhanced_budget_breakdown`
(source lines 485-490). -/
def add_enhanced_budget_breakdown (total_budget accommodation_pct transport_pct
    food_pct activities_pct : ℕ) : BudgetBreakdown :=
  let accommodation := pctAmount total_budget accommodation_pct
  let transport := pctAmount total_budget transport_pct
  let food := pctAmount total_budget food_pct
  let activities := pctAmount total_budget activities_pct
  { accommodation := accommodation
    transport := transport
    food := food
    activities := activities
    miscellaneous := (total_budget : ℤ) - (accommodation + transport + food + activities) }

theorem log2Fuel_eq (fuel n : ℕ) (h : n ≤ fuel) : log2Fuel fuel n = Nat.log2 n := by
  induction fuel generalizing n with
  | zero =>
    have hn : n = 0 := by omega
    subst hn
    rw [log2Fuel]
    unfold Nat.log2
    rw [if_neg (by omega)]
  | succ fuel ih =>
    rw [log2Fuel]
    unfold Nat.log2
    by_cases h2 : n < 2
    · rw [if_pos h2, if_neg (by omega)]
    · rw [if_neg h2, if_pos (by omega : n ≥ 2), ih (n / 2) (by omega)]

theorem natLog2_eq (n : ℕ) : natLog2 n = Nat.log2 n :=
  log2Fuel_eq n n le_rfl

/-- Helper: splitting a natural division, cast to the rationals. -/
theorem cast_div_split (num den : ℕ) (hden : 0 < den) :
    (num : ℚ) / den = ((num / den : ℕ) : ℚ) + ((num % den : ℕ) : ℚ) / den := by
  have hdenQ : (0 : ℚ) < (den : ℚ) := by exact_mod_cast hden
  have h1 : (num : ℚ) = (den : ℚ) * ((num / den : ℕ) : ℚ) + ((num % den : ℕ) : ℚ) := by
    exact_mod_cast (Nat.div_add_mod num den).symm
  rw [h1, add_div, mul_comm, mul_div_assoc, div_self (ne_of_gt hdenQ), mul_one]

/-- Helper: ties-to-even rounding is within one half of the true quotient. -/
theorem roundNearestEven_bounds (num den : ℕ) (hden : 0 < den) :
    (num : ℚ) / den - 1 / 2 ≤ (roundNearestEven num den : ℚ)
    ∧ (roundNearestEven num den : ℚ) ≤ (num : ℚ) / den + 1 / 2 := by
  have hdenQ : (0 : ℚ) < (den : ℚ) := by exact_mod_cast hden
  have hsplit := cast_div_split num den hden
  have hr0 : (0 : ℚ) ≤ ((num % den : ℕ) : ℚ) / den := by positivity
  have hrlt : ((num % den : ℕ) : ℚ) / den < 1 := by
    rw [div_lt_one hdenQ]
    exact_mod_cast Nat.mod_lt num hden
  by_cases h1 : 2 * (num % den) < den
  · have hm : roundNearestEven num den = num / den := by
      rw [roundNearestEven, if_pos h1]
    have hhalf : ((num % den : ℕ) : ℚ) / den < 1 / 2 := by
      rw [div_lt_iff₀ hdenQ]
      have hc : (2 : ℚ) * ((num % den : ℕ) : ℚ) < (den : ℚ) := by exact_mod_cast h1
      linarith
    rw [hm, hsplit]
    constructor <;> linarith
  · by_cases h2 : den < 2 * (num % den)
    · have hm : roundNearestEven num den = num / den + 1 := by
        rw [roundNearestEven, if_neg h1, if_pos h2]
      have hhalf : (1 : ℚ) / 2 < ((num % den : ℕ) : ℚ) / den := by
        rw [lt_div_iff₀ hdenQ]
        have hc : (den : ℚ) < (2 : ℚ) * ((num % den : ℕ) : ℚ) := by exact_mod_cast h2
        linarith
      rw [hm, hsplit]
      push_cast
      constructor <;> linarith
    · have heq : 2 * (num % den) = den := by omega
      have hhalf : ((num % den : ℕ) : ℚ) / den = 1 / 2 := by
        rw [div_eq_iff (ne_of_gt hdenQ)]
        have hc : ((2 : ℚ)) * ((num % den : ℕ) : ℚ) = (den : ℚ) := by exact_mod_cast heq
        linarith
      have hm : roundNearestEven num den = num / den
          ∨ roundNearestEven num den = num / den + 1 := by
        rw [roundNearestEven, if_neg h1, if_neg h2]
        split
        · exact Or.inl rfl
        · exact Or.inr rfl
      rcases hm with hm | hm <;> rw [hm, hsplit] <;> push_cast <;> constructor <;> linarith

set_option maxRecDepth 4000 in
/-- Helper: for dividends below `100 · 2^47`, truncating the correctly rounded
binary64 quotient by 100 agrees with exact natural floor division: the
rounding error is at most `2^-7`, smaller than the `1/100` gap separating a
non-integer quotient from the neighbouring integers. -/
theorem flDiv_int_floor (a : ℕ) (h : a < 100 * 2 ^ 47) :
    pyInt (flDiv a 100) = ((a / 100 : ℕ) : ℤ) := by
  rcases Nat.eq_zero_or_pos a with rfl | ha
  · simp [flDiv, pyInt]
  have hane : ¬ (a = 0 ∨ (100 : ℕ) = 0) := by omega
  have hN0 : a * 2 ^ 300 / 100 ≠ 0 := by
    have h100 : (100 : ℕ) ≤ 2 ^ 300 := by
      calc (100 : ℕ) ≤ 2 ^ 7 := by norm_num
        _ ≤ 2 ^ 300 := Nat.pow_le_pow_right (by norm_num) (by norm_num)
    have hle : (100 : ℕ) ≤ a * 2 ^ 300 := by
      calc (100 : ℕ) ≤ 2 ^ 300 := h100
        _ = 1 * 2 ^ 300 := (one_mul _).symm
        _ ≤ a * 2 ^ 300 := Nat.mul_le_mul_right _ ha
    exact (Nat.div_pos hle (by norm_num)).ne'
  have hL : natLog2 (a * 2 ^ 300 / 100) < 347 := by
    rw [natLog2_eq, Nat.log2_lt hN0, Nat.div_lt_iff_lt_mul (by norm_num : 0 < (100 : ℕ))]
    calc a * 2 ^ 300 < (100 * 2 ^ 47) * 2 ^ 300 :=
          (Nat.mul_lt_mul_right (pow_pos (by norm_num) 300)).mpr h
      _ = 2 ^ 347 * 100 := by ring
  set L := natLog2 (a * 2 ^ 300 / 100) with hLdef
  have he : flExp a 100 = (L : ℤ) - 300 := rfl
  have hnot52 : ¬ (52 ≤ flExp a 100) := by rw [he]; omega
  have htoNat : (52 - flExp a 100).toNat = 352 - L := by rw [he]; omega
  set S : ℕ := 2 ^ (352 - L) with hSdef
  have hS64 : (64 : ℕ) ≤ S := by
    rw [hSdef]
    calc (64 : ℕ) = 2 ^ 6 := by norm_num
      _ ≤ 2 ^ (352 - L) := Nat.pow_le_pow_right (by norm_num) (by omega)
  have hSQ : (0 : ℚ) < (S : ℚ) := by
    have h0S : 0 < S := by omega
    exact_mod_cast h0S
  set m : ℕ := roundNearestEven (a * S) 100 with hmdef
  have hzpow : (2 : ℚ) ^ (flExp a 100 - 52) = ((S : ℚ))⁻¹ := by
    have hexp : flExp a 100 - 52 = -((352 - L : ℕ) : ℤ) := by rw [he]; omega
    rw [hexp, zpow_neg, zpow_natCast, hSdef]
    norm_cast
  have hfl : flDiv a 100 = (m : ℚ) / S := by
    simp only [flDiv, if_neg hane, flScaled, if_neg hnot52, htoNat]
    rw [← hSdef, ← hmdef, hzpow, div_eq_mul_inv]
  obtain ⟨hlo, hhi⟩ := roundNearestEven_bounds (a * S) 100 (by norm_num)
  rw [← hmdef] at hlo hhi
  push_cast at hlo hhi
  have hq : (a : ℚ) * S / 100 = (a : ℚ) / 100 * S := by ring
  rw [hq] at hlo hhi
  have hxlo : (a : ℚ) / 100 - 1 / (2 * S) ≤ (m : ℚ) / S := by
    rw [le_div_iff₀ hSQ]
    have expand : ((a : ℚ) / 100 - 1 / (2 * S)) * S = (a : ℚ) / 100 * S - 1 / 2 := by
      field_simp
      ring
    rw [expand]
    linarith
  have hxhi : (m : ℚ) / S ≤ (a : ℚ) / 100 + 1 / (2 * S) := by
    rw [div_le_iff₀ hSQ]
    have expand : ((a : ℚ) / 100 + 1 / (2 * S)) * S = (a : ℚ) / 100 * S + 1 / 2 := by
      field_simp
      ring
    rw [expand]
    linarith
  have herr : 1 / (2 * (S : ℚ)) ≤ 1 / 128 := by
    have h128 : (128 : ℚ) ≤ 2 * S := by
      have h64 : (64 : ℚ) ≤ (S : ℚ) := by exact_mod_cast hS64
      linarith
    exact one_div_le_one_div_of_le (by norm_num) h128
  by_cases hdvd : a % 100 = 0
  · have hmod : (a * S) % 100 = 0 := by
      have hdvd2 : (100 : ℕ) ∣ a * S := (Nat.dvd_of_mod_eq_zero hdvd).mul_right S
      omega
    have hmval : m = (a / 100) * S := by
      rw [hmdef, roundNearestEven, if_pos (by omega)]
      rw [mul_comm a S, Nat.mul_div_assoc S (Nat.dvd_of_mod_eq_zero hdvd), mul_comm]
    have hflval : flDiv a 100 = ((a / 100 : ℕ) : ℚ) := by
      rw [hfl, hmval]
      push_cast
      rw [mul_div_assoc, div_self (ne_of_gt hSQ), mul_one]
    rw [hflval]
    simp only [pyInt]
    rw [if_pos (by positivity), Int.floor_natCast]
  · have h1 : 1 ≤ a % 100 := by omega
    have h99 : a % 100 ≤ 99 := by
      have := Nat.mod_lt a (show 0 < 100 by norm_num)
      omega
    have hqsplit := cast_div_split a 100 (by norm_num)
    push_cast at hqsplit
    have hfr_lo : ((a / 100 : ℕ) : ℚ) + 1 / 100 ≤ (a : ℚ) / 100 := by
      rw [hqsplit]
      have hstep : (1 : ℚ) / 100 ≤ ((a % 100 : ℕ) : ℚ) / 100 := by
        gcongr
        exact_mod_cast h1
      linarith
    have hfr_hi : (a : ℚ) / 100 ≤ ((a / 100 : ℕ) : ℚ) + 99 / 100 := by
      rw [hqsplit]
      have hstep : ((a % 100 : ℕ) : ℚ) / 100 ≤ 99 / 100 := by
        gcongr
        exact_mod_cast h99
      linarith
    rw [hfl]
    simp only [pyInt]
    rw [if_pos (by positivity), Int.floor_eq_iff, Int.cast_natCast]
    constructor
    · linarith
    · linarith

/-- Helper: each category amount equals the exact floor below the float
exactness bound. -/
theorem pctAmount_eq_floor (total pct : ℕ) (h : total * pct < 100 * 2 ^ 47) :
    pctAmount total pct = ((total * pct / 100 : ℕ) : ℤ) :=
  flDiv_int_floor (total * pct) h

/-- Claim C1: for every total budget B and every tuple of category percentages,
the five amounts of the budget breakdown (the four named categories plus the
reconciling miscellaneous amount, computed as B minus the sum of the other
four) sum exactly to B; the miscellaneous amount is surfaced as computed and
may be negative when the percentages sum above 100 (witnessed here by the
concrete instance total 100, percentages 50/50/50/50, miscellaneous -100). -/
theorem budget_breakdown_sums_to_total (total pa pt pf pac : ℕ) :
    (add_enhanced_budget_breakdown total pa pt pf pac).accommodation
      + (add_enhanced_budget_breakdown total pa pt pf pac).transport
      + (add_enhanced_budget_breakdown total pa pt pf pac).food
      + (add_enhanced_budget_breakdown total pa pt pf pac).activities
      + (add_enhanced_budget_breakdown total pa pt pf pac).miscellaneous
      = (total : ℤ)
    ∧ (add_enhanced_budget_breakdown 100 50 50 50 50).miscellaneous < 0 := by
  constructor
  · simp only [add_enhanced_budget_breakdown]
    ring
  · have h50 : pctAmount 100 50 = ((100 * 50 / 100 : ℕ) : ℤ) :=
      pctAmount_eq_floor 100 50 (by norm_num)
    simp only [add_enhanced_budget_breakdown, h50]
    norm_num

set_option maxRecDepth 8000 in
set_option maxHeartbeats 1600000 in
/-- Claim C5 counterexample: the claim "each named amount equals the exact
integer floor of total × pct / 100" fails on the code at total budget
142159079146801 with accommodation percentage 99 (in [0, 100]): CPython
`int(total * pct / 100)` rounds the float quotient up to 140737488355333,
one above the exact floor 140737488355332. -/
theorem budget_amount_not_floor_cex :
    (add_enhanced_budget_breakdown 142159079146801 99 0 0 0).accommodation
      = (140737488355333 : ℤ)
    ∧ ((142159079146801 * 99 / 100 : ℕ) : ℤ) = (140737488355332 : ℤ)
    ∧ (add_enhanced_budget_breakdown 142159079146801 99 0 0 0).accommodation
      ≠ ((142159079146801 * 99 / 100 : ℕ) : ℤ) := by
  have hprod : (142159079146801 * 99 : ℕ) = 14073748835533299 := by norm_num
  have hE : flExp 14073748835533299 100 = 47 := by decide
  have h5 : ((52 : ℤ) - 47).toNat = 5 := by decide
  have hm : roundNearestEven (14073748835533299 * 2 ^ 5) 100 = 4503599627370656 := by decide
  have hfl : flDiv 14073748835533299 100
      = ((roundNearestEven (14073748835533299 * 2 ^ 5) 100 : ℕ) : ℚ)
        * (2 : ℚ) ^ ((47 : ℤ) - 52) := by
    simp only [flDiv]
    rw [if_neg (by norm_num), hE]
    simp only [flScaled]
    rw [if_neg (by norm_num), h5]
  have hval : ((4503599627370656 : ℕ) : ℚ) * (2 : ℚ) ^ ((47 : ℤ) - 52)
      = ((140737488355333 : ℤ) : ℚ) := by
    have hneg : ((47 : ℤ) - 52) = -((5 : ℕ) : ℤ) := by decide
    rw [hneg, zpow_neg, zpow_natCast]
    norm_num
  have hpy : pyInt (((140737488355333 : ℤ) : ℚ)) = (140737488355333 : ℤ) := by
    simp only [pyInt]
    rw [if_pos (by norm_num), Int.floor_intCast]
  have h1 : (add_enhanced_budget_breakdown 142159079146801 99 0 0 0).accommodation
      = (140737488355333 : ℤ) := by
    show pctAmount 142159079146801 99 = (140737488355333 : ℤ)
    simp only [pctAmount]
    rw [hprod, hfl, hm, hval, hpy]
  have h2 : ((142159079146801 * 99 / 100 : ℕ) : ℤ) = (140737488355332 : ℤ) := by
    norm_num
  refine ⟨h1, h2, ?_⟩
  rw [h1, h2]
  decide

/-- Claim C5 (amended): each of the four named budget amounts equals the exact
integer floor of total × pct / 100 whenever total × pct is below 100 · 2^47
(≈ 1.4 × 10^16, so for every budget below ~1.4 × 10^14 at any percentage in
[0, 100]); beyond that bound the float rounding of `int(total * pct / 100)`
can exceed the exact floor, as the counterexample shows just past the bound. -/
theorem budget_amounts_are_floor (total pa pt pf pac : ℕ)
    (hpa : total * pa < 100 * 2 ^ 47) (hpt : total * pt < 100 * 2 ^ 47)
    (hpf : total * pf < 100 * 2 ^ 47) (hpac : total * pac < 100 * 2 ^ 47) :
    (add_enhanced_budget_breakdown total pa pt pf pac).accommodation
        = ((total * pa / 100 : ℕ) : ℤ)
    ∧ (add_enhanced_budget_breakdown total pa pt pf pac).transport
        = ((total * pt / 100 : ℕ) : ℤ)
    ∧ (add_enhanced_budget_breakdown total pa pt pf pac).food
        = ((total * pf / 100 : ℕ) : ℤ)
    ∧ (add_enhanced_budget_breakdown total pa pt pf pac).activities
        = ((total * pac / 100 : ℕ) : ℤ) :=
  ⟨pctAmount_eq_floor total pa hpa, pctAmount_eq_floor total pt hpt,
    pctAmount_eq_floor total pf hpf, pctAmount_eq_floor total pac hpac⟩

/-- Concrete instantiation of `budget_amounts_are_floor` at budget 100000
with percentages 40/25/20/15. -/
theorem budget_amounts_are_floor_witness :
    (add_enhanced_budget_breakdown 100000 40 25 20 15).accommodation
        = ((100000 * 40 / 100 : ℕ) : ℤ)
    ∧ (add_enhanced_budget_breakdown 100000 40 25 20 15).transport
        = ((100000 * 25 / 100 : ℕ) : ℤ)
    ∧ (add_enhanced_budget_breakdown 100000 40 25 20 15).food
        = ((100000 * 20 / 100 : ℕ) : ℤ)
    ∧ (add_enhanced_budget_breakdown 100000 40 25 20 15).activities
        = ((100000 * 15 / 100 : ℕ) : ℤ) :=
  budget_amounts_are_floor 100000 40 25 20 15 (by norm_num) (by norm_num)
    (by norm_num) (by norm_num)

/-! ## Shared text utility: Python `str.replace` -/

/-- Python `str.replace`, as a one-pass scanner: in state `0` a match of
`pat` at the current position emits `repl` and switches to a skip state for
the remainder of the match; state `k + 1` skips the current character. -/
def replAux (pat repl : List Char) : ℕ → List Char → List Char
  | _, [] => []
  | k + 1, _ :: rest => replAux pat repl k rest
  | 0, c :: rest =>
    if pat.isPrefixOf (c :: rest) && !pat.isEmpty then
      repl ++ replAux pat repl (pat.length - 1) rest
    else c :: replAux pat repl 0 rest

/-- Replace every non-overlapping occurrence of `pat` by `repl`, scanning
left to right (Python `str.replace` for a non-empty pattern). -/
def replaceList (pat repl l : List Char) : List Char :=
  replAux pat repl 0 l


/-! ## Price extraction (`extract_prices_from_text`, lines 112-142)

The eight currency regexes are abstracted as a `matcher` parameter returning
the captured amount strings in match order; each real capture is a full match
of the capture shape `\d{1,3}(,\d{3})*(\.\d{2})?` (the decidable predicate
`groupShape`). The numeric stage is concrete:
`clean_price = match.replace(',', '').replace('.00', '')` followed by
`int(float(clean_price))`. CPython `float` of such a cleaned string is finite
iff its value is below `2^1024 - 2^970` (the round-to-nearest-even overflow
threshold of binary64); at or above it, `float` returns infinity and
`int(inf)` raises OverflowError, which the `except ValueError` handler does
not catch, so the whole extraction aborts. For finite values, `int` truncates
to the integer part of the amount; the float rounding of astronomically large
finite amounts never changes membership in the accepted band [300, 500000]
(in-band values are far below `2^53` and round exactly), so the model uses
the exact integer part.
-/

/-- Shape of the strings after `(,\d{3})*` groups: comma-separated
three-digit groups, optionally ending in a two-digit cents part. -/
def tailShape : List Char → Bool
  | [] => true
  | ',' :: d1 :: d2 :: d3 :: rest =>
    d1.isDigit && d2.isDigit && d3.isDigit && tailShape rest
  | '.' :: d1 :: d2 :: [] => d1.isDigit && d2.isDigit
  | _ => false

/-- Full anchored match of the capture shape
`\d{1,3}(,\d{3})*(\.\d{2})?`: every string the real regex stage captures
satisfies this predicate. -/
def groupShape (s : String) : Bool :=
  match s.data with
  | [] => false
  | c1 :: rest1 =>
    c1.isDigit &&
      match rest1 with
      | [] => true
      | c2 :: rest2 =>
        if c2.isDigit then
          match rest2 with
          | [] => true
          | c3 :: rest3 =>
            if c3.isDigit then tailShape rest3 else tailShape (c3 :: rest3)
        else tailShape (c2 :: rest2)

/-- The numeric value of a digit string. -/
def digitsVal (l : List Char) : ℕ :=
  l.foldl (fun acc c => acc * 10 + (c.toNat - 48)) 0

/-- The smallest decimal value that CPython `float` rounds to infinity: the
midpoint between the largest finite double and `2^1024` (ties go to the even
`2^1024`). -/
def overflowThreshold : ℕ := 2 ^ 1024 - 2 ^ 970

/-- Python `int(float(match.replace(',', '').replace('.00', '')))` for one
captured amount string: strip commas, strip `.00`, and truncate. An integer
part at or above `overflowThreshold` makes `float` return infinity and
`int(inf)` raise OverflowError. -/
def pyParsePrice (m : String) : Except String ℕ :=
  let cleaned := replaceList ['.', '0', '0'] [] (m.data.filter (fun c => !(c == ',')))
  let v := digitsVal (cleaned.takeWhile Char.isDigit)
  if overflowThreshold ≤ v then Except.error "OverflowError"
  else Except.ok v

/-- The collection loop of `extract_prices_from_text`: parse each match in
order, append the in-band values, and propagate the first uncaught
OverflowError. -/
def collectPrices : List String → Except String (List ℕ)
  | [] => Except.ok []
  | m :: rest =>
    Except.bind (pyParsePrice m) (fun p =>
      Except.bind (collectPrices rest) (fun ps =>
        Except.ok (if 300 ≤ p ∧ p ≤ 500000 then p :: ps else ps)))

def exceptDecEq {ε α : Type} [DecidableEq ε] [DecidableEq α] :
    DecidableEq (Except ε α) := fun a b =>
  match a, b with
  | Except.error x, Except.error y =>
    if h : x = y then isTrue (by rw [h])
    else isFalse (by intro hc; injection hc; contradiction)
  | Except.error _, Except.ok _ => isFalse (fun hc => Except.noConfusion hc)
  | Except.ok _, Except.error _ => isFalse (fun hc => Except.noConfusion hc)
  | Except.ok x, Except.ok y =>
    if h : x = y then isTrue (by rw [h])
    else isFalse (by intro hc; injection hc; contradiction)

instance {ε α : Type} [DecidableEq ε] [DecidableEq α] : DecidableEq (Except ε α) :=
  exceptDecEq

/-- Insert a value into a strictly sorted list, keeping it strictly sorted and
duplicate-free: the building block modelling Python `sorted(list(set(. )))`. -/
def insertDedup (x : ℕ) : List ℕ → List ℕ
  | [] => [x]
  | y :: ys =>
    if x < y then x :: y :: ys
    else if x = y then y :: ys
    else y :: insertDedup x ys

/-- Model of Python `sorted(list(set(l)))`: the strictly ascending enumeration
of the distinct elements of `l`. -/
def sortedDedup (l : List ℕ) : List ℕ :=
  l.foldr insertDedup []

theorem head_insertDedup (x z : ℕ) (ys : List ℕ)
    (h : (insertDedup x ys).head? = some z) : z = x ∨ ys.head? = some z := by
  cases ys with
  | nil => simp [insertDedup] at h; exact Or.inl h.symm
  | cons y ys =>
    rw [insertDedup] at h
    split at h
    · simp at h; exact Or.inl h.symm
    · split at h
      · simp at h; exact Or.inr (by simp [h])
      · simp at h; exact Or.inr (by simp [h])

theorem chain_insertDedup (x : ℕ) (l : List ℕ) (h : l.Chain' (· < ·)) :
    (insertDedup x l).Chain' (· < ·) := by
  induction l with
  | nil => simp [insertDedup]
  | cons y ys ih =>
    rw [insertDedup]
    split
    · exact List.Chain'.cons (by assumption) h
    · split
      · exact h
      · rw [List.chain'_cons']
        refine ⟨?_, ih (List.Chain'.tail h)⟩
        intro z hz
        rcases head_insertDedup x z ys hz with rfl | hz2
        · omega
        · exact (List.chain'_cons'.mp h).1 z hz2

theorem mem_insertDedup (x z : ℕ) (l : List ℕ) (h : z ∈ insertDedup x l) :
    z = x ∨ z ∈ l := by
  induction l with
  | nil => simp [insertDedup] at h; exact Or.inl h
  | cons y ys ih =>
    rw [insertDedup] at h
    split at h
    · simpa using h
    · split at h
      · exact Or.inr h
      · rcases List.mem_cons.mp h with rfl | h2
        · exact Or.inr (List.mem_cons_self _ _)
        · rcases ih h2 with rfl | h3
          · exact Or.inl rfl
          · exact Or.inr (List.mem_cons_of_mem _ h3)

theorem chain_sortedDedup (l : List ℕ) : (sortedDedup l).Chain' (· < ·) := by
  induction l with
  | nil => simp [sortedDedup]
  | cons x xs ih => exact chain_insertDedup x _ ih

theorem mem_sortedDedup (z : ℕ) (l : List ℕ) (h : z ∈ sortedDedup l) : z ∈ l := by
  induction l with
  | nil => simp [sortedDedup] at h
  | cons x xs ih =>
    rcases mem_insertDedup x z _ h with rfl | h2
    · exact List.mem_cons_self _ _
    · exact List.mem_cons_of_mem _ (ih h2)

/-- Embedding of `extract_prices_from_text`: `matcher` stands for the regex
engine (the captured amount strings of the eight patterns, in iteration
order); `none` models Python `None` (absent text), which like `""` is falsy
and short-circuits to an empty result. A normal return is the ascending
deduplicated list `sorted(list(set(prices)))`; an `Except.error` is an
uncaught OverflowError escaping the function. -/
def extract_prices_from_text (matcher : String → List String) :
    Option String → Except String (List ℕ)
  | none => Except.ok []
  | some t =>
    if t = "" then Except.ok []
    else
      match collectPrices (matcher t) with
      | Except.error err => Except.error err
      | Except.ok ps => Except.ok (sortedDedup ps)

theorem mem_collectPrices (ms : List String) (ps : List ℕ)
    (h : collectPrices ms = Except.ok ps) : ∀ p ∈ ps, 300 ≤ p ∧ p ≤ 500000 := by
  induction ms generalizing ps with
  | nil =>
    have hnil : collectPrices ([] : List String) = Except.ok [] := rfl
    rw [hnil] at h
    simp only [Except.ok.injEq] at h
    subst h
    simp
  | cons m rest ih =>
    have hstep : collectPrices (m :: rest)
        = Except.bind (pyParsePrice m) (fun p =>
            Except.bind (collectPrices rest) (fun ps2 =>
              Except.ok (if 300 ≤ p ∧ p ≤ 500000 then p :: ps2 else ps2))) := rfl
    rw [hstep] at h
    cases hp : pyParsePrice m with
    | error err => rw [hp] at h; exact absurd h (by simp [Except.bind])
    | ok p =>
      rw [hp] at h
      cases hr : collectPrices rest with
      | error err => rw [hr] at h; exact absurd h (by simp [Except.bind])
      | ok ps2 =>
        rw [hr] at h
        simp only [Except.bind, Except.ok.injEq] at h
        have hmem := ih ps2 hr
        split at h
        · subst h
          intro x hx
          rcases List.mem_cons.mp hx with rfl | hx2
          · assumption
          · exact hmem x hx2
        · subst h
          exact hmem

/-- The amount string captured by the pattern `rs\.?\s*(...)` from
`overflowText`: the digit 1 followed by 103 thousands groups, value
`10^309`, which is at or above the float-overflow threshold. -/
def overflowAmount : String :=
  String.mk ('1' :: List.join (List.replicate 103 [',', '0', '0', '0']))

def overflowText : String := "rs " ++ overflowAmount

set_option maxRecDepth 8000 in
set_option maxHeartbeats 1600000 in
/-- Claim C3 counterexample: extraction is not error-free. On the input text
`"rs 1,000,...,000"` (103 thousands groups) the second pattern captures the
309-zero amount (a valid capture shape); its value `10^309` is at or above
the float-overflow threshold, so `int(float(...))` raises an uncaught
OverflowError and the extraction aborts instead of returning a list. -/
theorem extract_prices_raises_cex :
    groupShape overflowAmount = true
    ∧ digitsVal (overflowAmount.data.filter (fun c => !(c == ','))) = 10 ^ 309
    ∧ overflowThreshold ≤ 10 ^ 309
    ∧ extract_prices_from_text (fun _ => [overflowAmount]) (some overflowText)
        = Except.error "OverflowError" := by
  refine ⟨by decide, by decide, by decide, ?_⟩
  decide

/-- Claim C3 (amended): whenever extraction returns normally, the result is a
strictly ascending, duplicate-free list of values in [300, 500000] — for
every behaviour of the regex stage, since the band test guarding
`prices.append` and the final `sorted(list(set(prices)))` enforce these —
and empty or absent text yields the empty list; but extraction raises an
uncaught OverflowError when a matched amount reaches the float-overflow
threshold, so it is not total. -/
theorem extract_prices_sorted_bounded (matcher : String → List String)
    (t : Option String) (l : List ℕ)
    (hok : extract_prices_from_text matcher t = Except.ok l) :
    l.Chain' (· < ·)
    ∧ l.Nodup
    ∧ (∀ p ∈ l, 300 ≤ p ∧ p ≤ 500000)
    ∧ extract_prices_from_text matcher none = Except.ok []
    ∧ extract_prices_from_text matcher (some "") = Except.ok [] := by
  have hmain : l.Chain' (· < ·) ∧ (∀ p ∈ l, 300 ≤ p ∧ p ≤ 500000) := by
    cases t with
    | none =>
      simp only [extract_prices_from_text, Except.ok.injEq] at hok
      subst hok
      exact ⟨by simp, by simp⟩
    | some s =>
      rw [extract_prices_from_text] at hok
      split at hok
      · simp only [Except.ok.injEq] at hok
        subst hok
        exact ⟨by simp, by simp⟩
      · cases hc : collectPrices (matcher s) with
        | error err => rw [hc] at hok; exact absurd hok (by simp)
        | ok ps =>
          rw [hc] at hok
          simp only [Except.ok.injEq] at hok
          subst hok
          refine ⟨chain_sortedDedup ps, ?_⟩
          intro p hp
          exact mem_collectPrices (matcher s) ps hc p (mem_sortedDedup p ps hp)
  refine ⟨hmain.1, (List.chain'_iff_pairwise.mp hmain.1).nodup, hmain.2, rfl, ?_⟩
  rw [extract_prices_from_text]
  simp

set_option maxRecDepth 4000 in
/-- Concrete instantiation of `extract_prices_sorted_bounded` on a matcher
returning the captures 450, 1,200 and 200 (the last filtered out as below
the band). -/
theorem extract_prices_sorted_bounded_witness :
    List.Chain' (· < ·) [450, 1200]
    ∧ (300 ≤ (450 : ℕ) ∧ (450 : ℕ) ≤ 500000) := by
  refine ⟨?_, ?_⟩
  · exact (extract_prices_sorted_bounded (fun _ => ["450", "1,200", "200"]) (some "x")
      [450, 1200] (by decide)).1
  · exact (extract_prices_sorted_bounded (fun _ => ["450", "1,200", "200"]) (some "x")
      [450, 1200] (by decide)).2.2.1 450 (by decide)

/-! ## Theme assignment (`get_day_theme`, lines 362-385) -/

/-- The ordered theme list built by `get_day_theme` from the interest set:
fixed priority order History, Nature, Food, Culture, Adventure, Shopping, with
a default three-theme cycle substituted when none of the six is selected. -/
def rawThemes (interests : List String) : List String :=
  (if "History" ∈ interests then ["Historical Exploration"] else [])
  ++ (if "Nature" ∈ interests then ["Nature and Relaxation"] else [])
  ++ (if "Food" ∈ interests then ["Culinary Adventure"] else [])
  ++ (if "Culture" ∈ interests then ["Cultural Immersion"] else [])
  ++ (if "Adventure" ∈ interests then ["Adventure Activities"] else [])
  ++ (if "Shopping" ∈ interests then ["Shopping and Markets"] else [])

def themesFor (interests : List String) : List String :=
  if rawThemes interests = [] then ["City Exploration", "Cultural Tour", "Nature Walk"]
  else rawThemes interests

/-- Embedding of `get_day_theme`: `themes[(day_num - 2) % len(themes)]`.
For `day_num ≥ 2` the Python index arithmetic agrees with this `Nat` version. -/
def get_day_theme (day_num : ℕ) (interests : List String) : String :=
  (themesFor interests).getD ((day_num - 2) % (themesFor interests).length) ""

theorem themesFor_ne_nil (interests : List String) : themesFor interests ≠ [] := by
  rw [themesFor]
  split
  · simp
  · assumption

/-- Claim C4: theme assignment is total (the theme list is never empty), the
theme for day d is themes[(d - 2) mod len(themes)], the default list is
substituted when none of the six recognised interests is selected, and the
assignment is periodic: days d and d + len(themes) receive the same theme. -/
theorem day_theme_assignment (interests : List String) (d : ℕ) (hd : 2 ≤ d) :
    themesFor interests ≠ []
    ∧ get_day_theme d interests
        = (themesFor interests).getD ((d - 2) % (themesFor interests).length) ""
    ∧ ("History" ∉ interests → "Nature" ∉ interests → "Food" ∉ interests →
        "Culture" ∉ interests → "Adventure" ∉ interests → "Shopping" ∉ interests →
        themesFor interests = ["City Exploration", "Cultural Tour", "Nature Walk"])
    ∧ get_day_theme (d + (themesFor interests).length) interests
        = get_day_theme d interests := by
  refine ⟨themesFor_ne_nil interests, rfl, ?_, ?_⟩
  · intro h1 h2 h3 h4 h5 h6
    rw [themesFor, rawThemes]
    simp [h1, h2, h3, h4, h5, h6]
  · have hL : 0 < (themesFor interests).length :=
      List.length_pos.mpr (themesFor_ne_nil interests)
    rw [get_day_theme, get_day_theme]
    have harith : d + (themesFor interests).length - 2 = (d - 2) + (themesFor interests).length := by
      omega
    rw [harith, Nat.add_mod_right]

/-- Concrete instantiation of `day_theme_assignment`: with a single selected
interest the theme repeats with period one. -/
theorem day_theme_assignment_witness :
    get_day_theme (2 + (themesFor ["Food"]).length) ["Food"] = get_day_theme 2 ["Food"] :=
  (day_theme_assignment ["Food"] 2 (by decide)).2.2.2

/-! ## Activity templates (`get_activity_templates`, lines 387-477)

Only the per-period costs matter to the verified claims; the description
strings (with their placeholder interpolation) are not modelled. The Delhi
dictionary has all six themes plus a default entry; the generic dictionary
has two themes plus a default entry; `templates.get(theme, templates[d])`
with `d` the default key is modelled by `Option.getD`. -/

structure ActivityTemplate where
  morning_cost : ℕ
  afternoon_cost : ℕ
  evening_cost : ℕ
deriving DecidableEq, Repr

def delhiTemplates : String → Option ActivityTemplate := fun theme =>
  if theme = "Historical Exploration" then some ⟨200, 150, 800⟩
  else if theme = "Nature and Relaxation" then some ⟨150, 0, 800⟩
  else if theme = "Culinary Adventure" then some ⟨300, 1200, 600⟩
  else if theme = "Cultural Immersion" then some ⟨40, 100, 500⟩
  else if theme = "Adventure Activities" then some ⟨0, 30, 1000⟩
  else if theme = "Shopping and Markets" then some ⟨50, 0, 0⟩
  else none

def delhiDefault : ActivityTemplate := ⟨300, 200, 700⟩

def genericTemplates : String → Option ActivityTemplate := fun theme =>
  if theme = "Historical Exploration" then some ⟨200, 150, 600⟩
  else if theme = "Nature and Relaxation" then some ⟨100, 0, 400⟩
  else none

def genericDefault : ActivityTemplate := ⟨300, 200, 700⟩

/-- Python `destination.lower()`, modelled as an ASCII character-wise lowering. -/
def pyLower (s : String) : String :=
  String.mk (s.data.map Char.toLower)

/-- Embedding of the cost content of `get_activity_templates` combined with
the lookup `activity_templates.get(day_theme, activity_templates[d])` at the
use site in `add_detailed_day_by_day_itinerary`. -/
def get_activity_templates (destination theme : String) : ActivityTemplate :=
  if pyLower destination = "delhi" then (delhiTemplates theme).getD delhiDefault
  else (genericTemplates theme).getD genericDefault

/-! ## Day-by-day itinerary (`add_detailed_day_by_day_itinerary`, lines 256-360) -/

inductive DayKind where
  | arrival
  | exploration
  | departure
deriving DecidableEq, Repr

/-- One emitted day block of the itinerary section. `periodCosts` carries the
per-person morning/afternoon/evening costs of the selected template (main
exploration days only); `costLine` is the group amount of the final
"Estimated daily cost for group" bullet, when that bullet is emitted. -/
structure DayEntry where
  kind : DayKind
  dayNum : ℕ
  theme : Option String
  periodCosts : Option (ℕ × ℕ × ℕ)
  costLine : Option ℕ
deriving DecidableEq, Repr

/-- One main exploration day (loop body of `for day_num in range(2, duration)`):
daily cost `(morning + afternoon + evening + 1500) * num_travelers`. -/
def explorationDay (destination : String) (interests : List String)
    (num_travelers : ℕ) (day_num : ℕ) : DayEntry :=
  let theme := get_day_theme day_num interests
  let t := get_activity_templates destination theme
  { kind := DayKind.exploration
    dayNum := day_num
    theme := some theme
    periodCosts := some (t.morning_cost, t.afternoon_cost, t.evening_cost)
    costLine := some ((t.morning_cost + t.afternoon_cost + t.evening_cost + 1500) * num_travelers) }

/-- The fixed arrival-day block (day 1): cost line `4500 + num_travelers * 500`. -/
def arrivalDay (num_travelers : ℕ) : DayEntry :=
  { kind := DayKind.arrival
    dayNum := 1
    theme := none
    periodCosts := none
    costLine := some (4500 + num_travelers * 500) }

/-- The fixed departure-day block (day `duration`, emitted only when
`duration > 1`): no cost line. -/
def departureDay (duration : ℤ) : DayEntry :=
  { kind := DayKind.departure
    dayNum := duration.toNat
    theme := none
    periodCosts := none
    costLine := none }

/-- Embedding of the day blocks emitted by `add_detailed_day_by_day_itinerary`:
day 1 always, days `range(2, duration)` as exploration days, and the departure
day exactly when `duration > 1`. `duration` is the Python int
`(return_date - departure_date).days + 1`. -/
def add_detailed_day_by_day_itinerary (duration : ℤ) (destination : String)
    (interests : List String) (num_travelers : ℕ) : List DayEntry :=
  [arrivalDay num_travelers]
  ++ (List.range (duration - 2).toNat).map
      (fun i => explorationDay destination interests num_travelers (2 + i))
  ++ (if 1 < duration then [departureDay duration] else [])

/-- Claim C2: with duration D = return - departure + 1, the itinerary has
exactly D day entries for D ≥ 2 (one arrival, D - 2 exploration days numbered
2..D-1, one departure), and for D = 1 it is exactly the arrival block with no
departure and no exploration days. -/
theorem itinerary_day_structure (duration : ℤ) (dest : String)
    (interests : List String) (n : ℕ) :
    (2 ≤ duration →
      (add_detailed_day_by_day_itinerary duration dest interests n).length = duration.toNat
      ∧ (add_detailed_day_by_day_itinerary duration dest interests n).map DayEntry.kind
          = [DayKind.arrival]
            ++ List.replicate (duration - 2).toNat DayKind.exploration
            ++ [DayKind.departure]
      ∧ (add_detailed_day_by_day_itinerary duration dest interests n).map DayEntry.dayNum
          = [1] ++ (List.range (duration - 2).toNat).map (fun i => 2 + i) ++ [duration.toNat])
    ∧ (duration = 1 →
        add_detailed_day_by_day_itinerary duration dest interests n = [arrivalDay n]) := by
  constructor
  · intro h2
    have hdep : (1 : ℤ) < duration := by omega
    refine ⟨?_, ?_, ?_⟩
    · simp only [add_detailed_day_by_day_itinerary, if_pos hdep, List.length_append,
        List.length_map, List.length_range, List.length_cons, List.length_nil]
      omega
    · rw [add_detailed_day_by_day_itinerary, if_pos hdep]
      simp only [List.map_append, List.map_map, List.map_cons, List.map_nil]
      have hmid : List.map (DayEntry.kind ∘ fun i => explorationDay dest interests n (2 + i))
          (List.range (duration - 2).toNat)
          = List.replicate (duration - 2).toNat DayKind.exploration := by
        refine List.eq_replicate_iff.2 ⟨by simp, ?_⟩
        intro b hb
        simp only [List.mem_map, Function.comp] at hb
        obtain ⟨i, _, rfl⟩ := hb
        rfl
      rw [hmid]
      rfl
    · rw [add_detailed_day_by_day_itinerary, if_pos hdep]
      simp only [List.map_append, List.map_map, List.map_cons, List.map_nil]
      rfl
  · intro h1
    subst h1
    rfl

/-- Concrete instantiation of `itinerary_day_structure` at durations 3 and 1. -/
theorem itinerary_day_structure_witness :
    (add_detailed_day_by_day_itinerary 3 "Goa" ["Food"] 2).length = 3
    ∧ add_detailed_day_by_day_itinerary 1 "Goa" ["Food"] 2 = [arrivalDay 2] :=
  ⟨((itinerary_day_structure 3 "Goa" ["Food"] 2).1 (by decide)).1,
    (itinerary_day_structure 1 "Goa" ["Food"] 2).2 rfl⟩

/-- Claim C6: in every synthesized itinerary, each exploration day displays a
group cost equal to traveler_count × (morning + afternoon + evening per-person
costs + 1500 fixed daily overhead), the arrival day displays 4500 plus 500 per
traveler, and the departure day carries no cost line. -/
theorem day_group_cost (duration : ℤ) (dest : String) (interests : List String)
    (n : ℕ) (e : DayEntry)
    (he : e ∈ add_detailed_day_by_day_itinerary duration dest interests n) :
    (e.kind = DayKind.arrival → e.costLine = some (4500 + n * 500))
    ∧ (e.kind = DayKind.exploration →
        ∃ m a ev, e.periodCosts = some (m, a, ev)
          ∧ e.costLine = some (n * (m + a + ev + 1500)))
    ∧ (e.kind = DayKind.departure → e.costLine = none ∧ e.periodCosts = none) := by
  simp only [add_detailed_day_by_day_itinerary, List.mem_append, List.mem_cons,
    List.not_mem_nil, or_false, List.mem_map, List.mem_range] at he
  rcases he with he | he
  · rcases he with rfl | he
    · exact ⟨fun _ => rfl, by simp [arrivalDay], by simp [arrivalDay]⟩
    · rcases he with ⟨i, _, rfl⟩
      refine ⟨by simp [explorationDay], ?_, by simp [explorationDay]⟩
      intro _
      exact ⟨_, _, _, rfl, by simp [explorationDay, Nat.mul_comm]⟩
  · have he2 : e = departureDay duration := by
      by_cases hd : (1 : ℤ) < duration
      · simpa [hd] using he
      · simp [hd] at he
    subst he2
    exact ⟨by simp [departureDay], by simp [departureDay], fun _ => ⟨rfl, rfl⟩⟩

/-- Concrete instantiation of `day_group_cost` on the day-2 exploration entry
of a three-day trip. -/
theorem day_group_cost_witness :
    ∃ m a ev, (explorationDay "Goa" ["Food"] 2 2).periodCosts = some (m, a, ev)
      ∧ (explorationDay "Goa" ["Food"] 2 2).costLine = some (2 * (m + a + ev + 1500)) :=
  (day_group_cost 3 "Goa" ["Food"] 2 (explorationDay "Goa" ["Food"] 2 2)
    (by decide)).2.1 rfl

/-! ## PDF text cleaning (`clean_text_for_pdf`, lines 163-202)

The function strips markdown bold/italic markers (lazy regexes
`\*\*(.*?)\*\*` and `\*(.*?)\*`, where `.` does not match a newline),
applies the replacement table with `str.replace`, then drops every remaining
non-ASCII character via `encode('ascii', 'ignore')`.

A quirk of the source is modelled faithfully: the four curly-quote entries of
the table are written with plain ASCII quotes, so three consecutive quotes
form a (triple-quoted) string literal — the executed dict therefore contains
one multi-character ASCII key (colon, space, double quote, single quote,
double quote, comma, newline, twelve spaces) mapped to a single quote, plus an
identity entry for the double quote, and no curly-quote keys at all (curly
quotes fall through to the final ASCII filter and are dropped).

The lazy regex passes are modelled with an explicit fuel argument (always
sufficient, since every step consumes at least one input character) so that
all definitions reduce by computation. -/

/-- Scanner for the closing `**` of a lazy bold match: splits off the shortest
prefix not containing a newline that is followed by `**`. -/
def scanCloseBold : List Char → Option (List Char × List Char)
  | '*' :: '*' :: rest => some ([], rest)
  | '\n' :: _ => none
  | c :: rest =>
    match scanCloseBold rest with
    | some (content, r) => some (c :: content, r)
    | none => none
  | [] => none

/-- Scanner for the closing `*` of a lazy italic match. -/
def scanCloseStar : List Char → Option (List Char × List Char)
  | '*' :: rest => some ([], rest)
  | '\n' :: _ => none
  | c :: rest =>
    match scanCloseStar rest with
    | some (content, r) => some (c :: content, r)
    | none => none
  | [] => none

/-- Left-to-right replacement of lazy `\*\*(.*?)\*\*` matches by their group. -/
def subBoldFuel : ℕ → List Char → List Char
  | 0, l => l
  | _ + 1, [] => []
  | fuel + 1, '*' :: '*' :: rest =>
    (match scanCloseBold rest with
     | some (content, r) => content ++ subBoldFuel fuel r
     | none => '*' :: subBoldFuel fuel ('*' :: rest))
  | fuel + 1, c :: rest => c :: subBoldFuel fuel rest

/-- Left-to-right replacement of lazy `\*(.*?)\*` matches by their group. -/
def subItalicFuel : ℕ → List Char → List Char
  | 0, l => l
  | _ + 1, [] => []
  | fuel + 1, '*' :: rest =>
    (match scanCloseStar rest with
     | some (content, r) => content ++ subItalicFuel fuel r
     | none => '*' :: subItalicFuel fuel rest)
  | fuel + 1, c :: rest => c :: subItalicFuel fuel rest

def subBold (l : List Char) : List Char := subBoldFuel (l.length + 1) l

def subItalic (l : List Char) : List Char := subItalicFuel (l.length + 1) l

def quoteChar : Char := Char.ofNat 39

/-- The accidental multi-character key produced by the ASCII-quoted
curly-quote lines of the replacement dict (see the section comment). -/
def mangledQuoteKey : List Char :=
  [':', ' ', '"', quoteChar, '"', ',', '\n'] ++ List.replicate 12 ' '

/-- The replacement table of `clean_text_for_pdf`, in dict insertion order. -/
def pdfReplacements : List (List Char × List Char) :=
  [ (['₹'], ['R', 's', '.'])
  , (['•'], ['-'])
  , ([Char.ofNat 8209], ['-'])
  , (['–'], ['-'])
  , (['—'], ['-'])
  , (mangledQuoteKey, [quoteChar])
  , (['"'], ['"'])
  , (['…'], ['.', '.', '.'])
  , (['°'], [' ', 'd', 'e', 'g', 'r', 'e', 'e', 's'])
  , (['×'], ['x'])
  , (['÷'], ['/'])
  , (['é'], ['e'])
  , (['è'], ['e'])
  , (['ê'], ['e'])
  , (['ë'], ['e'])
  , (['à'], ['a'])
  , (['á'], ['a'])
  , (['â'], ['a'])
  , (['ä'], ['a'])
  , (['ç'], ['c'])
  , (['ñ'], ['n'])
  ]

def applyReplacements (l : List Char) : List (List Char × List Char) → List Char
  | [] => l
  | (p, r) :: rest => applyReplacements (replaceList p r l) rest

def isAsciiChar (c : Char) : Bool := decide (c.toNat < 128)

/-- The markdown-strip and replacement stages on the character list of a
non-empty text (everything before `encode('ascii', 'ignore')`). -/
def rawClean (l : List Char) : List Char :=
  applyReplacements (subItalic (subBold l)) pdfReplacements

/-- The full cleaning pipeline on a character list. -/
def cleanList (l : List Char) : List Char :=
  (rawClean l).filter isAsciiChar

/-- The pre-filter stage of `clean_text_for_pdf`; `none` models a falsy
(absent) input, which is returned as empty before any processing. -/
def cleanData : Option String → List Char
  | none => []
  | some s => if s = "" then [] else rawClean s.data

/-- Embedding of `clean_text_for_pdf`: the final `encode('ascii', 'ignore')`
filter applied to the pre-filter stage (for a falsy input both formulations
return the empty string). -/
def clean_text_for_pdf (t : Option String) : String :=
  String.mk ((cleanData t).filter isAsciiChar)

/-- Claim C9: the PDF text-cleaning function returns only ASCII characters;
the rupee sign maps to `Rs.`, listed punctuation and accented letters map to
their ASCII replacements, every remaining non-ASCII character is dropped, and
empty or absent input yields the empty string. -/
theorem clean_text_ascii (t : Option String) :
    (∀ c ∈ (clean_text_for_pdf t).data, c.toNat < 128)
    ∧ clean_text_for_pdf none = ""
    ∧ clean_text_for_pdf (some "") = ""
    ∧ cleanList ['₹', '1', '0', '0'] = ['R', 's', '.', '1', '0', '0']
    ∧ cleanList ['c', 'a', 'f', 'é'] = ['c', 'a', 'f', 'e']
    ∧ cleanList ['…', '—', '°'] = ['.', '.', '.', '-', ' ', 'd', 'e', 'g', 'r', 'e', 'e', 's']
    ∧ cleanList [Char.ofNat 20320] = [] := by
  refine ⟨?_, rfl, by decide, by decide, by decide, by decide, by decide⟩
  intro c hc
  have h := (List.mem_filter.mp hc).2
  simpa [isAsciiChar] using h

/-- Concrete instantiation of `clean_text_ascii`. -/
theorem clean_text_ascii_witness :
    cleanList ['c', 'a', 'f', 'é'] = ['c', 'a', 'f', 'e'] :=
  (clean_text_ascii none).2.2.2.2.1

/-! ## The application driver (`run`, lines 1573-1643) and the AI call
(`generate_trip_plan_with_data`, lines 1438-1571)

`run` collects the form data, and on the submit button: checks the required
fields, the date order, the transport-mode selection and the email format
(each check shows an error and returns); then gathers travel data, generates
the plan, and — when `trip_plan and not trip_plan.startswith("An error")` —
renders the plan and sends the PDF email. The external AI call is modelled by
its two inputs that matter: whether the Groq client is available, and the
outcome of the chat-completion request. -/

/-- The collected form data (`collect_user_inputs`), with dates as day
ordinals. Sliders constrain each percentage to [0, 100] in the UI, but `run`
itself receives plain integers. -/
structure UserData where
  name : String
  email : String
  mobile : String
  destination : String
  departure_city : String
  total_budget : ℕ
  departure_date : ℤ
  return_date : ℤ
  num_travelers : ℕ
  accommodation_pct : ℕ
  transport_pct : ℕ
  food_pct : ℕ
  activities_pct : ℕ
  transport_mode : List String
  interests : List String
  trip_type : String
  travel_pace : String
  dietary_pref : String
deriving DecidableEq, Repr

/-- Embedding of `generate_trip_plan_with_data`: the sentinel when the AI
client is unavailable, the prefixed message when the completion call raises,
otherwise the model content. -/
def generate_trip_plan_with_data (clientAvailable : Bool)
    (apiResult : Except String String) : String :=
  if !clientAvailable then "Error: AI service is not available."
  else
    match apiResult with
    | Except.error e => "An error occurred while generating the trip plan: " ++ e
    | Except.ok content => content

inductive RunResult where
  | validationError (msg : String)
  | generationFailed (plan : String)
  | delivered (plan : String)
deriving DecidableEq, Repr

/-- Python truthiness test of the required-field list
`['name', 'email', 'destination', 'departure_city', 'mobile', 'total_budget']`. -/
def requiredMissing (ud : UserData) : Bool :=
  ud.name == "" || ud.email == "" || ud.destination == "" || ud.departure_city == ""
    || ud.mobile == "" || ud.total_budget == 0

def isLocalChar (c : Char) : Bool :=
  c.isAlphanum || c == '.' || c == '_' || c == '%' || c == '+' || c == '-'

def isDomainChar (c : Char) : Bool :=
  c.isAlphanum || c == '.' || c == '-'

def splitOnChar (sep : Char) : List Char → List (List Char)
  | [] => [[]]
  | c :: rest =>
    match splitOnChar sep rest with
    | [] => [[]]
    | g :: gs => if c = sep then [] :: g :: gs else (c :: g) :: gs

/-- The domain side of the email regexp, `[a-zA-Z0-9.-]+\.[a-zA-Z]`ated at
least twice, anchored: only a split at the last dot can match. -/
def domainOk (l : List Char) : Bool :=
  let tld := (l.reverse.takeWhile (fun c => !(c == '.'))).reverse
  let pre := l.take (l.length - tld.length - 1)
  decide (tld.length < l.length) && !pre.isEmpty && pre.all isDomainChar
    && decide (2 ≤ tld.length) && tld.all (fun c => c.isAlpha)

/-- Embedding of `re.match(email_pattern, email)` truthiness for the pattern
anchored on both sides (Python `$` also matches before one trailing newline). -/
def emailValid (s : String) : Bool :=
  let l := if s.data.getLast? = some '\n' then s.data.dropLast else s.data
  match splitOnChar '@' l with
  | [lp, dp] => !lp.isEmpty && lp.all isLocalChar && domainOk dp
  | _ => false

/-- Embedding of the submit branch of `run`: the four validation gates in
source order, then the pipeline (gather, generate, and — under the
`trip_plan and not trip_plan.startswith("An error")` guard — render and
deliver). -/
def run (ud : UserData) (clientAvailable : Bool) (api : Except String String) : RunResult :=
  if requiredMissing ud then
    RunResult.validationError "Please fill in required fields"
  else if ud.return_date < ud.departure_date then
    RunResult.validationError "Return date must be after departure date."
  else if ud.transport_mode.isEmpty then
    RunResult.validationError "Please select your preferred transportation."
  else if !(emailValid ud.email) then
    RunResult.validationError "Please enter a valid email address."
  else
    let plan := generate_trip_plan_with_data clientAvailable api
    if plan == "" then RunResult.generationFailed plan
    else if ("An error".data).isPrefixOf plan.data then RunResult.generationFailed plan
    else RunResult.delivered plan

/-- Well-formedness of the budget percentages as stated by the data model
(each in [0, 100]). -/
def pctsWellFormed (ud : UserData) : Prop :=
  ud.accommodation_pct ≤ 100 ∧ ud.transport_pct ≤ 100
    ∧ ud.food_pct ≤ 100 ∧ ud.activities_pct ≤ 100

/-- A form submission that is valid except for a malformed accommodation
percentage (150). -/
def udMalformedPct : UserData :=
  { name := "Asha"
    email := "asha@example.com"
    mobile := "9876543210"
    destination := "Goa"
    departure_city := "Pune"
    total_budget := 50000
    departure_date := 0
    return_date := 2
    num_travelers := 2
    accommodation_pct := 150
    transport_pct := 25
    food_pct := 20
    activities_pct := 15
    transport_mode := ["Flight"]
    interests := ["Food"]
    trip_type := "Friends"
    travel_pace := "Moderate"
    dietary_pref := "Vegetarian" }

/-- Claim C7 counterexample: a submission with a malformed budget percentage
(accommodation 150) passes every validation gate of `run` and the pipeline
runs to delivery — `run` performs no budget-percentage validation at all, so
the claim is false for the "malformed budget percentages" case. -/
theorem percentages_not_validated :
    ¬ pctsWellFormed udMalformedPct
    ∧ run udMalformedPct true (Except.ok "PLAN") = RunResult.delivered "PLAN" := by
  constructor
  · intro h
    exact absurd h.1 (by decide)
  · decide

/-- Claim C7 (amended): for every input whose return date precedes its
departure date or whose transport-mode selection is empty, `run` reports a
validation error and the pipeline (gathering, generation, rendering,
delivery) does not run. Budget percentages are not validated by `run`; the
UI sliders are what constrains them to [0, 100]. -/
theorem validation_fail_fast (ud : UserData) (c : Bool) (api : Except String String)
    (h : ud.return_date < ud.departure_date ∨ ud.transport_mode = []) :
    ∃ msg, run ud c api = RunResult.validationError msg := by
  rw [run]
  by_cases h1 : requiredMissing ud = true
  · rw [if_pos h1]
    exact ⟨_, rfl⟩
  · rw [if_neg h1]
    by_cases h2 : ud.return_date < ud.departure_date
    · rw [if_pos h2]
      exact ⟨_, rfl⟩
    · rw [if_neg h2]
      have h3 : ud.transport_mode = [] := by tauto
      rw [if_pos (show ud.transport_mode.isEmpty = true by simp [h3])]
      exact ⟨_, rfl⟩

/-- A form submission whose return date precedes its departure date. -/
def udBadDates : UserData :=
  { udMalformedPct with accommodation_pct := 40, departure_date := 10, return_date := 8 }

/-- Concrete instantiation of `validation_fail_fast`. -/
theorem validation_fail_fast_witness :
    ∃ msg, run udBadDates true (Except.ok "PLAN") = RunResult.validationError msg :=
  validation_fail_fast udBadDates true (Except.ok "PLAN") (Or.inl (by decide))

/-- A fully valid form submission. -/
def udValid : UserData :=
  { udMalformedPct with accommodation_pct := 40 }

/-- Claim C8: the AI-unavailable sentinel `"Error: AI service is not
available."` is a failed generation, yet the guard in `run` only tests the
prefix `"An error"`, so the sentinel is treated as a successful plan and the
pipeline proceeds to render and deliver it. This exhibits the code bug: the
claim (any known error prefix is treated as failure) does not hold for the
sentinel prefix `"Error:"`. -/
theorem error_sentinel_delivered :
    generate_trip_plan_with_data false (Except.ok "unused")
      = "Error: AI service is not available."
    ∧ run udValid false (Except.ok "unused")
      = RunResult.delivered "Error: AI service is not available." := by
  exact ⟨rfl, by decide⟩

/-! ## Structured PDF assembly (`create_structured_pdf`, lines 1191-1236,
and the `AITripPlanner.create_structured_pdf` wrapper, lines 1256-1260)

The method receives `trip_plan` (the generated narrative) and `user_data`,
and builds every section from `user_data` alone; the gathered `travel_data`
is not even a parameter. -/

/-- The document content model assembled by `create_structured_pdf`. -/
structure TripDocument where
  destination : String
  userName : String
  departureDate : ℤ
  returnDate : ℤ
  overviewDuration : ℤ
  overviewTripType : String
  overviewTravelers : ℕ
  overviewBudget : ℕ
  overviewInterests : List String
  overviewPace : String
  overviewDietary : String
  overviewTransport : List String
  itinerary : List DayEntry
  budget : BudgetBreakdown
  budgetTotalRow : ℕ
  closingDuration : ℤ
deriving DecidableEq, Repr

/-- Embedding of `create_structured_pdf`: every field is computed from
`user_data`; the `trip_plan` argument is accepted and ignored, exactly as in
the source. -/
def create_structured_pdf (trip_plan : String) (ud : UserData) : TripDocument :=
  let duration := ud.return_date - ud.departure_date + 1
  { destination := ud.destination
    userName := ud.name
    departureDate := ud.departure_date
    returnDate := ud.return_date
    overviewDuration := duration
    overviewTripType := ud.trip_type
    overviewTravelers := ud.num_travelers
    overviewBudget := ud.total_budget
    overviewInterests := ud.interests.take 3
    overviewPace := ud.travel_pace
    overviewDietary := ud.dietary_pref
    overviewTransport := ud.transport_mode
    itinerary := add_detailed_day_by_day_itinerary duration ud.destination ud.interests
      ud.num_travelers
    budget := add_enhanced_budget_breakdown ud.total_budget ud.accommodation_pct
      ud.transport_pct ud.food_pct ud.activities_pct
    budgetTotalRow := ud.total_budget
    closingDuration := duration }

/-- Claim C10: the assembled PDF document is a function of the user request
data alone — for any fixed user_data, calls with different trip_plan strings
produce identical document content (and the gathered travel data is not a
parameter of the function at all). -/
theorem pdf_ignores_trip_plan (tp1 tp2 : String) (ud : UserData) :
    create_structured_pdf tp1 ud = create_structured_pdf tp2 ud := rfl

end TripPlanner
